import Mathlib

/-!
# Verification of the `tasks` in-process scheduler (shaelmaar/tasks)

Shallow embedding of `scheduler.go` / the `Task` value object.

Modelling conventions:
* `time.Duration` is embedded as `Int` (nanoseconds); the source only compares
  durations against `time.Duration(0)`.
* Error values returned by task bodies are embedded as `ErrorV := Nat`
  identifiers; `errors.Is(err, e)` against the distinct sentinel error values
  registered in `rescheduleOnError` is embedded as equality of identifiers.
* A `context.Context`/`CancelFunc` pair is embedded as `Option Bool`:
  `none` = no context attached, `some false` = live context,
  `some true` = canceled context (`ctx.Err() != nil`).
* Function-valued fields (`TaskFunc`, `ErrFunc`, ...) are embedded as `Bool`
  presence flags (`has... = true` iff the Go field is non-nil); the value a
  body returns on a given invocation is passed explicitly to the execution
  model as an `Option ErrorV` (`none` = nil error).
* The Go map `map[string]*Task` registry is embedded as an association list
  with map semantics (registration inserts only absent keys).
* `time.Timer` is embedded as `Option Duration`: `some d` = armed to fire
  after `d`, `none` = not armed / fired / stopped. `Reset d` sets `some d`;
  `Stop` sets `none`.
-/

namespace Tasks

abbrev Duration := Int

abbrev ErrorV := Nat

/-- Options of a reschedule-on-error policy entry (`rescheduleOnErrorOpts`). -/
structure RescheduleOpts where
  interval : Duration
  count : Int
deriving DecidableEq, Repr

/-- The `TaskContext` value: user context, attached cancel function, task id. -/
structure TaskContext where
  context : Option Bool := none
  cancel : Bool := false
  id : String := ""
deriving DecidableEq, Repr

/-- The `Task` value object of `tasks.go`. Runtime-only fields (`timer`,
`ctx`) follow the timer/context conventions in the module docstring. -/
structure Task where
  id : String := ""
  taskContext : TaskContext := {}
  interval : Duration := 0
  runOnce : Bool := false
  retriesOnError : Int := 0
  retryOnErrorInterval : Duration := 0
  startAfter : Int := 0
  hasTaskFunc : Bool := false
  hasErrFunc : Bool := false
  hasFuncWithTaskContext : Bool := false
  hasErrFuncWithTaskContext : Bool := false
  rescheduleOnError : List (ErrorV × RescheduleOpts) := []
  timer : Option Duration := none
  ctx : Option Bool := none
deriving DecidableEq, Repr

/-- `Task.Clone`: field-by-field copy (the `rescheduleOnError` map is copied
entry by entry; in the value semantics of the embedding this is the list
itself). -/
def Task.clone (t : Task) : Task :=
  { id := t.id
    taskContext := t.taskContext
    interval := t.interval
    runOnce := t.runOnce
    retriesOnError := t.retriesOnError
    retryOnErrorInterval := t.retryOnErrorInterval
    startAfter := t.startAfter
    hasTaskFunc := t.hasTaskFunc
    hasErrFunc := t.hasErrFunc
    hasFuncWithTaskContext := t.hasFuncWithTaskContext
    hasErrFuncWithTaskContext := t.hasErrFuncWithTaskContext
    rescheduleOnError := t.rescheduleOnError
    timer := t.timer
    ctx := t.ctx }

/-- Registry lookup (`s.tasks[id]`). -/
def regLookup : List (String × Task) → String → Option Task
  | [], _ => none
  | (k, v) :: rest, name => if k = name then some v else regLookup rest name

/-- Registry deletion (`delete(s.tasks, name)`). -/
def regErase (l : List (String × Task)) (name : String) : List (String × Task) :=
  l.filter (fun p => decide (p.1 ≠ name))

/-- Registry size (`len(s.tasks)`). -/
def regSize (l : List (String × Task)) : Nat := l.length

/-- The scheduler state: the task registry plus the `TaskLimit` option.
(`WorkerLimit` and the logger are concurrency/observability collaborators
with no effect on the state transitions modelled here.) -/
structure StdScheduler where
  tasks : List (String × Task) := []
  taskLimit : Int := 0
deriving DecidableEq, Repr

/-- The distinct registration error values of `scheduler.go`. -/
inductive RegErr where
  | idInUse
  | retryOnErrorIntervalEmpty
  | intervalEmpty
  | taskExecFunctionsNotSet
  | taskErrFunctionsNotSet
  | taskLimitExceeded
deriving DecidableEq, Repr

/-- Result of `AddWithID`: the returned error, the scheduler after the call,
and the caller's task object after the call (Go mutates it through the
pointer). -/
structure RegResult where
  err : Option RegErr
  sched : StdScheduler
  task : Task
deriving DecidableEq, Repr

/-- The mutation `AddWithID` performs on the caller's task after validation
and before the admission checks: create the private cancellation context,
stamp the id into the `TaskContext`, and attach a fresh user context (with
its cancel function) when none was supplied. -/
def admitMutate (id : String) (t : Task) : Task :=
  let t1 : Task := { t with ctx := some false }
  let t2 : Task := { t1 with taskContext := { t1.taskContext with id := id } }
  if t2.taskContext.context = none then
    { t2 with taskContext := { t2.taskContext with context := some false, cancel := true } }
  else t2

/-- `StdScheduler.AddWithID`: validates the task, performs the admission-time
mutation of the caller's task, then checks the task limit and id uniqueness
and inserts a clone into the registry. Mirrors the statement order of the
source. -/
def StdScheduler.AddWithID (s : StdScheduler) (id : String) (t : Task) : RegResult :=
  if t.hasTaskFunc = false ∧ t.hasFuncWithTaskContext = false then
    ⟨some RegErr.taskExecFunctionsNotSet, s, t⟩
  else if t.hasErrFunc = false ∧ t.hasErrFuncWithTaskContext = false then
    ⟨some RegErr.taskErrFunctionsNotSet, s, t⟩
  else if t.runOnce = false ∧ t.interval ≤ 0 then
    ⟨some RegErr.intervalEmpty, s, t⟩
  else if t.runOnce = true ∧ 0 < t.retriesOnError ∧ t.retryOnErrorInterval ≤ 0 then
    ⟨some RegErr.retryOnErrorIntervalEmpty, s, t⟩
  else
    let t3 : Task := admitMutate id t
    if 0 < s.taskLimit ∧ s.taskLimit ≤ (regSize s.tasks : Int) then
      ⟨some RegErr.taskLimitExceeded, s, t3⟩
    else if (regLookup s.tasks id).isSome then
      ⟨some RegErr.idInUse, s, t3⟩
    else
      let t4 : Task := { t3 with id := id }
      ⟨none, { s with tasks := (id, t4.clone) :: s.tasks }, t4⟩

/-- `StdScheduler.Add` with the xid generator abstracted as `gen : Nat → String`
(the n-th generated identifier) and explicit fuel for the recursion; `none`
models non-termination of the retry loop. On `ErrIDInUse` the source retries
with the same scheduler and the same (already mutated) task object. -/
def addFuel (gen : Nat → String) : Nat → Nat → StdScheduler → Task →
    Option (Option RegErr × StdScheduler × Task × String)
  | 0, _, _, _ => none
  | fuel + 1, n, s, t =>
    let r := s.AddWithID (gen n) t
    if r.err = some RegErr.idInUse then addFuel gen fuel (n + 1) r.sched r.task
    else some (r.err, r.sched, r.task, gen n)

/-- `StdScheduler.Del` as a transformation of the scheduler state: look the
task up; if absent, no-op; if present, remove the entry from the registry
(the cancellation / timer-stop effects act on the removed task object and
are modelled at the lifecycle level by `lifeDel`). -/
def StdScheduler.Del (s : StdScheduler) (name : String) : StdScheduler :=
  match regLookup s.tasks name with
  | none => s
  | some _ => { s with tasks := regErase s.tasks name }

/-- `StdScheduler.Lookup`: returns a clone of the stored task, or a
not-found failure (`none`). -/
def StdScheduler.Lookup (s : StdScheduler) (name : String) : Option Task :=
  match regLookup s.tasks name with
  | some t => some t.clone
  | none => none

/-- `StdScheduler.Has`. -/
def StdScheduler.Has (s : StdScheduler) (name : String) : Bool :=
  (regLookup s.tasks name).isSome

/-- A task configuration that passes the four registration validation
checks. -/
def validTask (t : Task) : Prop :=
  (t.hasTaskFunc = true ∨ t.hasFuncWithTaskContext = true) ∧
  (t.hasErrFunc = true ∨ t.hasErrFuncWithTaskContext = true) ∧
  (t.runOnce = true ∨ 0 < t.interval) ∧
  (t.runOnce = false ∨ t.retriesOnError ≤ 0 ∨ 0 < t.retryOnErrorInterval)

instance (t : Task) : Decidable (validTask t) := by
  unfold validTask; infer_instance

/-- Map-semantics update of the `rescheduleOnError` association list
(`t.rescheduleOnError[e] = opts` on an existing key). -/
def setAssoc : List (ErrorV × RescheduleOpts) → ErrorV → RescheduleOpts →
    List (ErrorV × RescheduleOpts)
  | [], _, _ => []
  | (k, v) :: rest, e, o => if k = e then (k, o) :: rest else (k, v) :: setAssoc rest e o

/-- Loop body of `rescheduleTaskOnError`: iterate the policy entries with the
accumulated `exists` flag; a matching entry with exhausted count breaks out of
the loop, a matching live entry decrements its count and resets the timer to
the policy interval. `errors.Is` is equality of error identifiers (the
registered sentinel values are distinct). -/
def rescheduleGo (err : ErrorV) : Task → Bool → List (ErrorV × RescheduleOpts) → Task × Bool
  | t, ex, [] => (t, ex)
  | t, ex, (e, opts) :: rest =>
    if err = e then
      if opts.count ≤ 0 then (t, true)
      else
        let opts1 : RescheduleOpts := { opts with count := opts.count - 1 }
        let t1 : Task := { t with
          timer := some opts.interval
          rescheduleOnError := setAssoc t.rescheduleOnError e opts1 }
        rescheduleGo err t1 true rest
    else rescheduleGo err t ex rest

/-- `rescheduleTaskOnError`: returns the updated task and whether any policy
entry matched the error. -/
def rescheduleTaskOnError (t : Task) (err : ErrorV) : Task × Bool :=
  if t.rescheduleOnError.length = 0 then (t, false)
  else rescheduleGo err t false t.rescheduleOnError

/-- Result of `onTaskError`: the updated task, the `deleteTask` flag returned
to `execTask`, and whether the generic error handler (`ErrFunc` /
`ErrFuncWithTaskContext`) was dispatched for this failure. -/
structure OnErrResult where
  task : Task
  deleteTask : Bool
  genericHandlerCalled : Bool
deriving DecidableEq, Repr

/-- `onTaskError`: tier 1 is the reschedule-on-specific-error policy (a match
suppresses the generic handler and returns `deleteTask = false`, the zero
value); tier 2 dispatches the generic error handler and either consumes a
generic retry (run-once with `RetriesOnError > 0`: decrement and reset the
timer to `RetryOnErrorInterval`) or requests deletion. -/
def onTaskError (t : Task) (err : ErrorV) : OnErrResult :=
  let r := rescheduleTaskOnError t err
  if r.2 = true then ⟨r.1, false, false⟩
  else
    let t1 := r.1
    if t1.runOnce = true ∧ 0 < t1.retriesOnError then
      ⟨{ t1 with retriesOnError := t1.retriesOnError - 1,
                 timer := some t1.retryOnErrorInterval }, false, true⟩
    else ⟨t1, true, true⟩

/-- Lifecycle state of one registered task: the stored task object, whether
it is still in the scheduler's registry, and how many times its body has been
executed. -/
structure LifeState where
  task : Task
  inRegistry : Bool
  execCount : Nat
deriving DecidableEq, Repr

/-- Effect of `Del` on the task object it removes: cancel the private
context, cancel the user context when a cancel function is attached, and stop
the timer. -/
def Task.cancelOnDel (t : Task) : Task :=
  { t with
    ctx := t.ctx.map (fun _ => true)
    taskContext :=
      if t.taskContext.cancel = true then
        { t.taskContext with context := t.taskContext.context.map (fun _ => true) }
      else t.taskContext
    timer := none }

/-- `Del` at the lifecycle level: if the task is still registered, cancel its
contexts, stop its timer and remove it from the registry; otherwise no-op. -/
def lifeDel (st : LifeState) : LifeState :=
  if st.inRegistry = true then
    { st with inRegistry := false, task := st.task.cancelOnDel }
  else st

/-- Body of the deferred-start alarm armed by `scheduleTask`: if the task's
private context is already canceled, do nothing; otherwise arm the interval
timer. (A registered task always has a private context; the `none` branch is
unreachable and modelled as a no-op.) -/
def scheduleTaskFire (t : Task) : Task :=
  match t.ctx with
  | some true => t
  | some false => { t with timer := some t.interval }
  | none => t

/-- The deferred-start alarm firing, on the lifecycle state. -/
def deferredFire (st : LifeState) : LifeState :=
  { st with task := scheduleTaskFire st.task }

/-- The part of `execTask` that runs synchronously on the timer callback:
for a recurring task, reset the interval timer immediately (before the
spawned body completes). -/
def execTaskSync (st : LifeState) : LifeState :=
  if st.task.runOnce = false then
    { st with task := { st.task with timer := some st.task.interval } }
  else st

/-- The spawned part of `execTask`: run the body (which returns `err`),
apply `onTaskError` on failure, and delete a run-once task whose
`deleteTask` flag survived (also on success, where `deleteTask` keeps its
initial `true`). -/
def execTaskBody (st : LifeState) (err : Option ErrorV) : LifeState :=
  let st1 : LifeState := { st with execCount := st.execCount + 1 }
  match err with
  | none => if st1.task.runOnce = true then lifeDel st1 else st1
  | some e =>
    let r := onTaskError st1.task e
    let st2 : LifeState := { st1 with task := r.task }
    if st2.task.runOnce = true ∧ r.deleteTask = true then lifeDel st2 else st2

/-- One interval-timer fire: if the timer is not armed nothing happens;
otherwise the one-shot timer is consumed and `execTask` runs, its body
returning `err`. -/
def timerFire (st : LifeState) (err : Option ErrorV) : LifeState :=
  match st.task.timer with
  | none => st
  | some _ =>
    let st1 : LifeState := { st with task := { st.task with timer := none } }
    execTaskBody (execTaskSync st1) err

/-- Lifecycle events observable by one task. -/
inductive Ev where
  | deferred
  | fire (err : Option ErrorV)
  | del
deriving DecidableEq, Repr

/-- Apply one lifecycle event. -/
def stepEv (st : LifeState) : Ev → LifeState
  | Ev.deferred => deferredFire st
  | Ev.fire err => timerFire st err
  | Ev.del => lifeDel st

/-- Run a sequence of lifecycle events. -/
def runEvents : LifeState → List Ev → LifeState
  | st, [] => st
  | st, ev :: rest => runEvents (stepEv st ev) rest

/-- Iterate `k` interval-timer fires whose body always fails with `e`. -/
def iterFire (e : ErrorV) : Nat → LifeState → LifeState
  | 0, st => st
  | k + 1, st => timerFire (iterFire e k st) (some e)

/-- Example: a valid recurring task configuration. -/
def exValid : Task := { hasTaskFunc := true, hasErrFunc := true, interval := 5 }

/-- Example: an empty scheduler whose task limit is 1. -/
def exSchedEmpty : StdScheduler := { tasks := [], taskLimit := 1 }

/-- Example: the limit-1 scheduler after registering `exValid` at id `a`
(it is now at capacity). -/
def exSchedFull : StdScheduler := (exSchedEmpty.AddWithID "a" exValid).sched

/-- Example: a run-once task with 2 generic retries, armed and registered. -/
def exRunOnceLife : LifeState :=
  { task := { runOnce := true, retriesOnError := 2, retryOnErrorInterval := 7,
              hasTaskFunc := true, hasErrFunc := true, interval := 5,
              ctx := some false, timer := some 5 }
    inRegistry := true
    execCount := 0 }

/-- Example: a recurring task with two reschedule-on-error policies, one live
(error 4) and one exhausted (error 8). -/
def exPolicyTask : Task :=
  { runOnce := false, interval := 10, hasTaskFunc := true, hasErrFunc := true,
    rescheduleOnError := [(4, ⟨3, 2⟩), (8, ⟨6, 0⟩)],
    ctx := some false, timer := some 10 }

/-- Example: the recurring policy task, registered and armed. -/
def exPolicyLife : LifeState :=
  { task := exPolicyTask, inRegistry := true, execCount := 0 }

/-- Example: a freshly registered task whose deferred-start alarm has not
fired yet (live private context, no timer armed, never executed). -/
def exPendingLife : LifeState :=
  { task := { runOnce := false, interval := 5, hasTaskFunc := true,
              hasErrFunc := true, ctx := some false, timer := none }
    inRegistry := true
    execCount := 0 }

/-- Example: an identifier generator that collides with `a` once and then
produces the fresh identifier `b`. -/
def exGen : Nat → String := fun n => if n = 0 then "a" else "b"

/-- Example: an unlimited scheduler holding a task registered at id `a`. -/
def exSchedA : StdScheduler :=
  (StdScheduler.AddWithID { tasks := [], taskLimit := 0 } "a" exValid).sched

/-- Example: the task stored at id `a` in `exSchedA`. -/
def exStoredA : Task := (regLookup exSchedA.tasks "a").getD {}

/-- Example: the output of the auto-id registration on `exSchedA` with the
colliding generator `exGen`. -/
def exAddOut : Option RegErr × StdScheduler × Task × String :=
  (addFuel exGen 2 0 exSchedA exValid).getD (none, exSchedA, exValid, "")

/-! ## Registry lemmas -/

lemma regLookup_regErase (l : List (String × Task)) (name : String) :
    regLookup (regErase l name) name = none := by
  induction l with
  | nil => rfl
  | cons p rest ih =>
    by_cases h : p.1 = name
    · simpa [regErase, List.filter_cons, h] using ih
    · simpa [regErase, List.filter_cons, h, regLookup] using ih

/-! ## Lemmas about the admission-time mutation -/

lemma admitMutate_ctx (id : String) (t : Task) : (admitMutate id t).ctx = some false := by
  simp only [admitMutate]
  split <;> rfl

lemma admitMutate_id (id : String) (t : Task) :
    (admitMutate id t).taskContext.id = id := by
  simp only [admitMutate]
  split <;> rfl

lemma admitMutate_context_isSome (id : String) (t : Task) :
    (admitMutate id t).taskContext.context.isSome = true := by
  simp only [admitMutate]
  split
  · rfl
  · rename_i h
    simpa [Option.isSome_iff_ne_none] using h

lemma admitMutate_fresh (id : String) (t : Task) (h : t.taskContext.context = none) :
    (admitMutate id t).taskContext.context = some false ∧
    (admitMutate id t).taskContext.cancel = true := by
  simp only [admitMutate]
  rw [if_pos (by simpa using h)]
  exact ⟨rfl, rfl⟩

/-- Characterization of `AddWithID` on a task passing validation. -/
lemma addWithID_of_valid (s : StdScheduler) (id : String) (t : Task)
    (hv : validTask t) :
    s.AddWithID id t =
      if 0 < s.taskLimit ∧ s.taskLimit ≤ (regSize s.tasks : Int) then
        ⟨some RegErr.taskLimitExceeded, s, admitMutate id t⟩
      else if (regLookup s.tasks id).isSome then
        ⟨some RegErr.idInUse, s, admitMutate id t⟩
      else
        ⟨none,
          { s with tasks :=
              (id, Task.clone { admitMutate id t with id := id }) :: s.tasks },
          { admitMutate id t with id := id }⟩ := by
  obtain ⟨v1, v2, v3, v4⟩ := hv
  have n1 : ¬(t.hasTaskFunc = false ∧ t.hasFuncWithTaskContext = false) := by
    rcases v1 with h | h <;> simp [h]
  have n2 : ¬(t.hasErrFunc = false ∧ t.hasErrFuncWithTaskContext = false) := by
    rcases v2 with h | h <;> simp [h]
  have n3 : ¬(t.runOnce = false ∧ t.interval ≤ 0) := by
    rintro ⟨hro, hle⟩
    rcases v3 with h | h
    · simp [h] at hro
    · exact absurd h (not_lt.2 hle)
  have n4 : ¬(t.runOnce = true ∧ 0 < t.retriesOnError ∧ t.retryOnErrorInterval ≤ 0) := by
    rintro ⟨hro, hr, hle⟩
    rcases v4 with h | h | h
    · simp [h] at hro
    · exact absurd hr (not_lt.2 h)
    · exact absurd h (not_lt.2 hle)
  unfold StdScheduler.AddWithID
  rw [if_neg n1, if_neg n2, if_neg n3, if_neg n4]

/-! ## Claim theorems: registration and deletion -/

/-- C3: `AddWithID` checks its preconditions in the fixed source order —
execution body, error handler, interval unless run-once, retry interval for a
retrying run-once task — and on the first violated precondition returns the
corresponding error (the four errors being pairwise distinct), leaving the
scheduler (hence the registry and its size) and the caller's task
unchanged. -/
theorem addWithID_validation_order (s : StdScheduler) (id : String) (t : Task) :
    [RegErr.taskExecFunctionsNotSet, RegErr.taskErrFunctionsNotSet,
      RegErr.intervalEmpty, RegErr.retryOnErrorIntervalEmpty].Nodup ∧
    (t.hasTaskFunc = false → t.hasFuncWithTaskContext = false →
      s.AddWithID id t = ⟨some RegErr.taskExecFunctionsNotSet, s, t⟩) ∧
    ((t.hasTaskFunc = true ∨ t.hasFuncWithTaskContext = true) →
      t.hasErrFunc = false → t.hasErrFuncWithTaskContext = false →
      s.AddWithID id t = ⟨some RegErr.taskErrFunctionsNotSet, s, t⟩) ∧
    ((t.hasTaskFunc = true ∨ t.hasFuncWithTaskContext = true) →
      (t.hasErrFunc = true ∨ t.hasErrFuncWithTaskContext = true) →
      t.runOnce = false → t.interval ≤ 0 →
      s.AddWithID id t = ⟨some RegErr.intervalEmpty, s, t⟩) ∧
    ((t.hasTaskFunc = true ∨ t.hasFuncWithTaskContext = true) →
      (t.hasErrFunc = true ∨ t.hasErrFuncWithTaskContext = true) →
      t.runOnce = true → 0 < t.retriesOnError → t.retryOnErrorInterval ≤ 0 →
      s.AddWithID id t = ⟨some RegErr.retryOnErrorIntervalEmpty, s, t⟩) := by
  refine ⟨by decide, ?_, ?_, ?_, ?_⟩
  · intro h1 h2
    simp [StdScheduler.AddWithID, h1, h2]
  · intro h he1 he2
    rcases h with h | h <;> simp [StdScheduler.AddWithID, h, he1, he2]
  · intro hf he hro hle
    rcases hf with hf | hf <;> rcases he with he | he <;>
      simp [StdScheduler.AddWithID, hf, he, hro, hle]
  · intro hf he hro hr hle
    rcases hf with hf | hf <;> rcases he with he | he <;>
      simp [StdScheduler.AddWithID, hf, he, hro, hr, hle]

/-- Witness for C3 at a concrete input: registering the all-defaults task
(no execution body) fails with the first validation error and changes
nothing. -/
theorem addWithID_validation_order_witness :
    exSchedEmpty.AddWithID "x" {} =
      ⟨some RegErr.taskExecFunctionsNotSet, exSchedEmpty, {}⟩ :=
  (addWithID_validation_order exSchedEmpty "x" {}).2.1 rfl rfl

/-- C8: `Del` is idempotent removal: deleting an absent identifier is a
no-op, deleting makes the identifier absent, and a second `Del` of the same
identifier leaves the state of the first `Del` unchanged. -/
theorem del_idempotent_removal (s : StdScheduler) (name : String) :
    (s.Has name = false → s.Del name = s) ∧
    (s.Del name).Has name = false ∧
    (s.Del name).Del name = s.Del name := by
  cases h : regLookup s.tasks name with
  | none =>
    have hd : s.Del name = s := by unfold StdScheduler.Del; rw [h]
    refine ⟨fun _ => hd, ?_, by rw [hd, hd]⟩
    rw [hd]
    unfold StdScheduler.Has
    rw [h]
    rfl
  | some t0 =>
    have hd : s.Del name = { s with tasks := regErase s.tasks name } := by
      unfold StdScheduler.Del; rw [h]
    have h2 : regLookup (regErase s.tasks name) name = none := regLookup_regErase _ _
    refine ⟨fun hh => ?_, ?_, ?_⟩
    · exfalso
      unfold StdScheduler.Has at hh
      rw [h] at hh
      simp at hh
    · rw [hd]
      unfold StdScheduler.Has
      rw [show ({ s with tasks := regErase s.tasks name } : StdScheduler).tasks =
        regErase s.tasks name from rfl, h2]
      rfl
    · rw [hd]
      unfold StdScheduler.Del
      rw [show ({ s with tasks := regErase s.tasks name } : StdScheduler).tasks =
        regErase s.tasks name from rfl, h2]

/-- Witness for C8 at a concrete input: deleting the absent id `z` from the
example scheduler. -/
theorem del_idempotent_removal_witness :
    (exSchedFull.Del "z" = exSchedFull) ∧
    (exSchedFull.Del "z").Has "z" = false ∧
    (exSchedFull.Del "z").Del "z" = exSchedFull.Del "z" :=
  ⟨(del_idempotent_removal exSchedFull "z").1 (by decide),
   (del_idempotent_removal exSchedFull "z").2.1,
   (del_idempotent_removal exSchedFull "z").2.2⟩

/-- C9: when `AddWithID` fails with the task-limit or the id-in-use error,
the caller's task has nevertheless been mutated: the private cancellation
context was created, the identifier was stamped into its `TaskContext`, and a
user context (with its cancel function) was attached when none was
supplied — unlike the validation-error paths, which leave the task
untouched. -/
theorem addWithID_admission_mutation (s : StdScheduler) (id : String) (t : Task)
    (h : (s.AddWithID id t).err = some RegErr.taskLimitExceeded ∨
         (s.AddWithID id t).err = some RegErr.idInUse) :
    (s.AddWithID id t).task.ctx = some false ∧
    (s.AddWithID id t).task.taskContext.id = id ∧
    (s.AddWithID id t).task.taskContext.context.isSome = true ∧
    (t.taskContext.context = none →
      (s.AddWithID id t).task.taskContext.context = some false ∧
      (s.AddWithID id t).task.taskContext.cancel = true) := by
  by_cases h1 : t.hasTaskFunc = false ∧ t.hasFuncWithTaskContext = false
  · exfalso
    simp [StdScheduler.AddWithID, h1] at h
  by_cases h2 : t.hasErrFunc = false ∧ t.hasErrFuncWithTaskContext = false
  · exfalso
    simp [StdScheduler.AddWithID, h1, h2] at h
  by_cases h3 : t.runOnce = false ∧ t.interval ≤ 0
  · exfalso
    simp [StdScheduler.AddWithID, h1, h2, h3] at h
  by_cases h4 : t.runOnce = true ∧ 0 < t.retriesOnError ∧ t.retryOnErrorInterval ≤ 0
  · exfalso
    simp [StdScheduler.AddWithID, h1, h2, h3, h4] at h
  have hcore : s.AddWithID id t =
      (if 0 < s.taskLimit ∧ s.taskLimit ≤ (regSize s.tasks : Int) then
        (⟨some RegErr.taskLimitExceeded, s, admitMutate id t⟩ : RegResult)
      else if (regLookup s.tasks id).isSome then
        ⟨some RegErr.idInUse, s, admitMutate id t⟩
      else
        ⟨none, { s with tasks :=
            (id, Task.clone { admitMutate id t with id := id }) :: s.tasks },
          { admitMutate id t with id := id }⟩) := by
    unfold StdScheduler.AddWithID
    rw [if_neg h1, if_neg h2, if_neg h3, if_neg h4]
  rw [hcore] at h ⊢
  by_cases hl : 0 < s.taskLimit ∧ s.taskLimit ≤ (regSize s.tasks : Int)
  · rw [if_pos hl]
    exact ⟨admitMutate_ctx id t, admitMutate_id id t, admitMutate_context_isSome id t,
      admitMutate_fresh id t⟩
  by_cases hd : (regLookup s.tasks id).isSome
  · rw [if_neg hl, if_pos hd]
    exact ⟨admitMutate_ctx id t, admitMutate_id id t, admitMutate_context_isSome id t,
      admitMutate_fresh id t⟩
  · exfalso
    rw [if_neg hl, if_neg hd] at h
    simp at h

/-- Witness for C9 at a concrete input: re-registering id `a` on the
unlimited example scheduler fails with the id-in-use error, yet the caller's
task comes back with contexts created and the id stamped. -/
theorem addWithID_admission_mutation_witness :
    (exSchedA.AddWithID "a" exValid).task.ctx = some false ∧
    (exSchedA.AddWithID "a" exValid).task.taskContext.id = "a" ∧
    (exSchedA.AddWithID "a" exValid).task.taskContext.context.isSome = true ∧
    (exValid.taskContext.context = none →
      (exSchedA.AddWithID "a" exValid).task.taskContext.context = some false ∧
      (exSchedA.AddWithID "a" exValid).task.taskContext.cancel = true) :=
  addWithID_admission_mutation exSchedA "a" exValid (Or.inr (by decide))

/-- C10: the task-limit check precedes the duplicate-identifier check: on a
scheduler at its configured capacity, `AddWithID` returns the task-limit
error even when the identifier is already in use, and the auto-id `Add` loop
therefore surfaces the capacity error instead of retrying. -/
theorem taskLimit_check_precedes_idInUse (s : StdScheduler) (id : String) (t : Task)
    (gen : Nat → String) (fuel n : Nat) (hv : validTask t)
    (hlim : 0 < s.taskLimit) (hsize : s.taskLimit ≤ (regSize s.tasks : Int))
    (hid : (regLookup s.tasks id).isSome = true) :
    s.AddWithID id t = ⟨some RegErr.taskLimitExceeded, s, admitMutate id t⟩ ∧
    (0 < fuel →
      addFuel gen fuel n s t =
        some (some RegErr.taskLimitExceeded, s, admitMutate (gen n) t, gen n)) := by
  have hfst : ∀ i : String, s.AddWithID i t =
      ⟨some RegErr.taskLimitExceeded, s, admitMutate i t⟩ := by
    intro i
    rw [addWithID_of_valid s i t hv, if_pos ⟨hlim, hsize⟩]
  refine ⟨hfst id, ?_⟩
  intro hf
  cases fuel with
  | zero => exact absurd hf (by simp)
  | succ fuel =>
    simp only [addFuel, hfst (gen n)]
    rfl

/-- Witness for C10 at a concrete input: the limit-1 scheduler holding id
`a` rejects a second registration at `a` with the capacity error, and the
auto-id loop surfaces it. -/
theorem taskLimit_check_precedes_idInUse_witness :
    exSchedFull.AddWithID "a" exValid =
      ⟨some RegErr.taskLimitExceeded, exSchedFull, admitMutate "a" exValid⟩ ∧
    (0 < 2 →
      addFuel exGen 2 0 exSchedFull exValid =
        some (some RegErr.taskLimitExceeded, exSchedFull,
          admitMutate (exGen 0) exValid, exGen 0)) :=
  taskLimit_check_precedes_idInUse exSchedFull "a" exValid exGen 2 0
    (by decide) (by decide) (by decide) (by decide)

/-- C4: the auto-id registration loop never surfaces the id-in-use error:
whenever `addFuel` terminates with a result, its error component is not
`ErrIDInUse` (on that condition the loop retries with a fresh generated
identifier instead). -/
theorem add_never_surfaces_idInUse (gen : Nat → String) (fuel : Nat) :
    ∀ (n : Nat) (s : StdScheduler) (t : Task)
      (out : Option RegErr × StdScheduler × Task × String),
      addFuel gen fuel n s t = some out → out.1 ≠ some RegErr.idInUse := by
  induction fuel with
  | zero =>
    intro n s t out h
    simp [addFuel] at h
  | succ fuel ih =>
    intro n s t out h
    simp only [addFuel] at h
    by_cases hc : (s.AddWithID (gen n) t).err = some RegErr.idInUse
    · rw [if_pos hc] at h
      exact ih _ _ _ _ h
    · rw [if_neg hc] at h
      injection h with h1
      subst h1
      exact hc

/-- Witness for C4 at a concrete input: the colliding generator `exGen` hits
the in-use id `a`, silently retries with `b`, and the surfaced result is not
the id-in-use error. -/
theorem add_never_surfaces_idInUse_witness :
    addFuel exGen 2 0 exSchedA exValid = some exAddOut ∧
    exAddOut.1 ≠ some RegErr.idInUse :=
  ⟨by decide,
   add_never_surfaces_idInUse exGen 2 0 exSchedA exValid exAddOut (by decide)⟩

/-- C5 counterexample: on a scheduler already at its configured task limit,
re-registering the in-use identifier `a` with a valid task fails with the
capacity error, not the id-in-use error — refuting the claim as universally
stated. -/
theorem duplicate_id_counterexample :
    exSchedFull.Has "a" = true ∧ validTask exValid ∧
    (exSchedFull.AddWithID "a" exValid).err ≠ some RegErr.idInUse ∧
    (exSchedFull.AddWithID "a" exValid).err = some RegErr.taskLimitExceeded := by
  decide

/-- C5 (amended): provided the configured task limit is not already reached,
a second registration at an in-use identifier fails with the id-in-use error
and the original registration stays intact: the scheduler state is
unchanged, `Has` still holds and `Lookup` still resolves the original
stored task's snapshot. -/
theorem duplicate_id_keeps_original (s : StdScheduler) (id : String) (t t0 : Task)
    (hv : validTask t) (h0 : regLookup s.tasks id = some t0)
    (hlim : ¬(0 < s.taskLimit ∧ s.taskLimit ≤ (regSize s.tasks : Int))) :
    (s.AddWithID id t).err = some RegErr.idInUse ∧
    (s.AddWithID id t).sched = s ∧
    (s.AddWithID id t).sched.Has id = true ∧
    (s.AddWithID id t).sched.Lookup id = some t0.clone := by
  have hchar := addWithID_of_valid s id t hv
  rw [if_neg hlim, if_pos (by rw [h0]; rfl)] at hchar
  rw [hchar]
  refine ⟨rfl, rfl, ?_, ?_⟩
  · unfold StdScheduler.Has
    rw [h0]
    rfl
  · unfold StdScheduler.Lookup
    rw [h0]

/-- Witness for the amended C5 at a concrete input: re-registering id `a` on
the unlimited example scheduler. -/
theorem duplicate_id_keeps_original_witness :
    (exSchedA.AddWithID "a" exValid).err = some RegErr.idInUse ∧
    (exSchedA.AddWithID "a" exValid).sched = exSchedA ∧
    (exSchedA.AddWithID "a" exValid).sched.Has "a" = true ∧
    (exSchedA.AddWithID "a" exValid).sched.Lookup "a" = some exStoredA.clone :=
  duplicate_id_keeps_original exSchedA "a" exValid exStoredA
    (by decide) (by decide) (by decide)

/-! ## Lemmas about the reschedule-on-error loop -/

lemma rescheduleGo_nomatch (err : ErrorV) (t : Task) (ex : Bool)
    (l : List (ErrorV × RescheduleOpts)) (h : ∀ p ∈ l, p.1 ≠ err) :
    rescheduleGo err t ex l = (t, ex) := by
  induction l generalizing t ex with
  | nil => rfl
  | cons p rest ih =>
    obtain ⟨e, opts⟩ := p
    have he : ¬(err = e) := fun hh => (h (e, opts) (List.mem_cons_self _ _)) hh.symm
    simp only [rescheduleGo]
    rw [if_neg he]
    exact ih t ex (fun q hq => h q (List.mem_cons_of_mem _ hq))

lemma rescheduleGo_match_exhausted (err : ErrorV) (opts : RescheduleOpts) :
    ∀ (l : List (ErrorV × RescheduleOpts)) (t : Task) (ex : Bool),
      (l.map Prod.fst).Nodup → (err, opts) ∈ l → opts.count ≤ 0 →
      rescheduleGo err t ex l = (t, true) := by
  intro l
  induction l with
  | nil =>
    intro t ex _ hm _
    simp at hm
  | cons p rest ih =>
    intro t ex hnd hm hc
    obtain ⟨e, o⟩ := p
    rw [List.map_cons, List.nodup_cons] at hnd
    by_cases he : err = e
    · subst he
      have ho : o = opts := by
        rcases List.mem_cons.1 hm with heq | hmem
        · simp [Prod.ext_iff] at heq
          exact heq.symm
        · exact absurd (List.mem_map.2 ⟨(err, opts), hmem, rfl⟩) hnd.1
      simp only [rescheduleGo]
      rw [if_pos trivial, if_pos (ho ▸ hc)]
    · have hmem : (err, opts) ∈ rest := by
        rcases List.mem_cons.1 hm with heq | hmem
        · exact absurd (congrArg Prod.fst heq) he
        · exact hmem
      simp only [rescheduleGo]
      rw [if_neg he]
      exact ih t ex hnd.2 hmem hc

lemma rescheduleGo_match_live (err : ErrorV) (opts : RescheduleOpts) :
    ∀ (l : List (ErrorV × RescheduleOpts)) (t : Task) (ex : Bool),
      (l.map Prod.fst).Nodup → (err, opts) ∈ l → 0 < opts.count →
      rescheduleGo err t ex l =
        ({ t with timer := some opts.interval,
                  rescheduleOnError :=
                    setAssoc t.rescheduleOnError err
                      { opts with count := opts.count - 1 } }, true) := by
  intro l
  induction l with
  | nil =>
    intro t ex _ hm _
    simp at hm
  | cons p rest ih =>
    intro t ex hnd hm hc
    obtain ⟨e, o⟩ := p
    rw [List.map_cons, List.nodup_cons] at hnd
    by_cases he : err = e
    · subst he
      have ho : o = opts := by
        rcases List.mem_cons.1 hm with heq | hmem
        · simp [Prod.ext_iff] at heq
          exact heq.symm
        · exact absurd (List.mem_map.2 ⟨(err, opts), hmem, rfl⟩) hnd.1
      subst ho
      simp only [rescheduleGo]
      rw [if_pos trivial, if_neg (not_le.2 hc)]
      refine rescheduleGo_nomatch err _ true rest ?_
      intro q hq hqe
      exact hnd.1 (List.mem_map.2 ⟨q, hq, hqe⟩)
    · have hmem : (err, opts) ∈ rest := by
        rcases List.mem_cons.1 hm with heq | hmem
        · exact absurd (congrArg Prod.fst heq) he
        · exact hmem
      simp only [rescheduleGo]
      rw [if_neg he]
      exact ih t ex hnd.2 hmem hc

lemma rescheduleTaskOnError_nomatch (t : Task) (err : ErrorV)
    (hnm : ∀ p ∈ t.rescheduleOnError, p.1 ≠ err) :
    rescheduleTaskOnError t err = (t, false) := by
  unfold rescheduleTaskOnError
  by_cases h : t.rescheduleOnError.length = 0
  · rw [if_pos h]
  · rw [if_neg h]
    exact rescheduleGo_nomatch err t false _ hnm

lemma rescheduleTaskOnError_match_exhausted (t : Task) (err : ErrorV)
    (opts : RescheduleOpts) (hnd : (t.rescheduleOnError.map Prod.fst).Nodup)
    (hm : (err, opts) ∈ t.rescheduleOnError) (hc : opts.count ≤ 0) :
    rescheduleTaskOnError t err = (t, true) := by
  unfold rescheduleTaskOnError
  rw [if_neg (by intro h0; rw [List.length_eq_zero] at h0; rw [h0] at hm; simp at hm)]
  exact rescheduleGo_match_exhausted err opts _ t false hnd hm hc

lemma rescheduleTaskOnError_match_live (t : Task) (err : ErrorV)
    (opts : RescheduleOpts) (hnd : (t.rescheduleOnError.map Prod.fst).Nodup)
    (hm : (err, opts) ∈ t.rescheduleOnError) (hc : 0 < opts.count) :
    rescheduleTaskOnError t err =
      ({ t with timer := some opts.interval,
                rescheduleOnError :=
                  setAssoc t.rescheduleOnError err
                    { opts with count := opts.count - 1 } }, true) := by
  unfold rescheduleTaskOnError
  rw [if_neg (by intro h0; rw [List.length_eq_zero] at h0; rw [h0] at hm; simp at hm)]
  exact rescheduleGo_match_live err opts _ t false hnd hm hc

/-! ## Lemmas about the error-handling decision -/

lemma onTaskError_match_live (t : Task) (err : ErrorV) (opts : RescheduleOpts)
    (hnd : (t.rescheduleOnError.map Prod.fst).Nodup)
    (hm : (err, opts) ∈ t.rescheduleOnError) (hc : 0 < opts.count) :
    onTaskError t err =
      ⟨{ t with timer := some opts.interval,
                rescheduleOnError :=
                  setAssoc t.rescheduleOnError err
                    { opts with count := opts.count - 1 } }, false, false⟩ := by
  unfold onTaskError
  rw [rescheduleTaskOnError_match_live t err opts hnd hm hc]
  rfl

lemma onTaskError_match_exhausted (t : Task) (err : ErrorV) (opts : RescheduleOpts)
    (hnd : (t.rescheduleOnError.map Prod.fst).Nodup)
    (hm : (err, opts) ∈ t.rescheduleOnError) (hc : opts.count ≤ 0) :
    onTaskError t err = ⟨t, false, false⟩ := by
  unfold onTaskError
  rw [rescheduleTaskOnError_match_exhausted t err opts hnd hm hc]
  rfl

lemma onTaskError_nomatch_retry (t : Task) (err : ErrorV)
    (hnm : ∀ p ∈ t.rescheduleOnError, p.1 ≠ err)
    (hro : t.runOnce = true) (hr : 0 < t.retriesOnError) :
    onTaskError t err =
      ⟨{ t with retriesOnError := t.retriesOnError - 1,
                timer := some t.retryOnErrorInterval }, false, true⟩ := by
  unfold onTaskError
  rw [rescheduleTaskOnError_nomatch t err hnm]
  simp [hro, hr]

lemma onTaskError_nomatch_noretry (t : Task) (err : ErrorV)
    (hnm : ∀ p ∈ t.rescheduleOnError, p.1 ≠ err)
    (hnr : ¬(t.runOnce = true ∧ 0 < t.retriesOnError)) :
    onTaskError t err = ⟨t, true, true⟩ := by
  unfold onTaskError
  rw [rescheduleTaskOnError_nomatch t err hnm]
  simp [hnr]

/-- C2: a body error matching a registered reschedule-on-error policy entry
suppresses the generic error handler and never requests deletion; if the
matched policy's remaining count is positive, the count is decremented and
the task's timer is reset to the policy's interval, and if the count is
already exhausted the task is left entirely untouched (no timer reset, no
deletion — dormant). -/
theorem rescheduleOnError_policy (t : Task) (err : ErrorV) (opts : RescheduleOpts)
    (hnd : (t.rescheduleOnError.map Prod.fst).Nodup)
    (hm : (err, opts) ∈ t.rescheduleOnError) :
    (onTaskError t err).genericHandlerCalled = false ∧
    (onTaskError t err).deleteTask = false ∧
    (0 < opts.count →
      (onTaskError t err).task =
        { t with timer := some opts.interval,
                 rescheduleOnError :=
                   setAssoc t.rescheduleOnError err
                     { opts with count := opts.count - 1 } }) ∧
    (opts.count ≤ 0 → (onTaskError t err).task = t) := by
  by_cases hc : 0 < opts.count
  · rw [onTaskError_match_live t err opts hnd hm hc]
    exact ⟨rfl, rfl, fun _ => rfl, fun hle => absurd hc (not_lt.2 hle)⟩
  · rw [onTaskError_match_exhausted t err opts hnd hm (not_lt.1 hc)]
    exact ⟨rfl, rfl, fun hlt => absurd hlt hc, fun _ => rfl⟩

/-! ## Lemmas about the execution lifecycle -/

lemma timerFire_none (st : LifeState) (err : Option ErrorV)
    (h : st.task.timer = none) : timerFire st err = st := by
  unfold timerFire
  rw [h]

lemma timerFire_step (st : LifeState) (err : Option ErrorV) (d : Duration)
    (h : st.task.timer = some d) :
    timerFire st err =
      execTaskBody (execTaskSync { st with task := { st.task with timer := none } }) err := by
  unfold timerFire
  rw [h]

lemma scheduleTaskFire_canceled (t : Task) (h : t.ctx = some true) :
    scheduleTaskFire t = t := by
  unfold scheduleTaskFire
  rw [h]

lemma rescheduleGo_runOnce (err : ErrorV) :
    ∀ (l : List (ErrorV × RescheduleOpts)) (t : Task) (ex : Bool),
      ((rescheduleGo err t ex l).1).runOnce = t.runOnce := by
  intro l
  induction l with
  | nil => intro t ex; rfl
  | cons p rest ih =>
    intro t ex
    obtain ⟨e, o⟩ := p
    simp only [rescheduleGo]
    by_cases he : err = e
    · rw [if_pos he]
      by_cases hc : o.count ≤ 0
      · rw [if_pos hc]
      · rw [if_neg hc]
        exact ih _ true
    · rw [if_neg he]
      exact ih t ex

lemma rescheduleTaskOnError_runOnce (t : Task) (err : ErrorV) :
    ((rescheduleTaskOnError t err).1).runOnce = t.runOnce := by
  unfold rescheduleTaskOnError
  split
  · rfl
  · exact rescheduleGo_runOnce err t.rescheduleOnError t false

lemma onTaskError_runOnce (t : Task) (err : ErrorV) :
    ((onTaskError t err).task).runOnce = t.runOnce := by
  simp only [onTaskError]
  split
  · exact rescheduleTaskOnError_runOnce t err
  · split
    · exact rescheduleTaskOnError_runOnce t err
    · exact rescheduleTaskOnError_runOnce t err

lemma execTaskSync_inRegistry (st : LifeState) :
    (execTaskSync st).inRegistry = st.inRegistry := by
  unfold execTaskSync
  split <;> rfl

lemma execTaskSync_runOnce_pres (st : LifeState) :
    (execTaskSync st).task.runOnce = st.task.runOnce := by
  unfold execTaskSync
  split <;> rfl

lemma execTaskBody_inRegistry (st : LifeState) (err : Option ErrorV)
    (h : st.task.runOnce = false) :
    (execTaskBody st err).inRegistry = st.inRegistry := by
  unfold execTaskBody
  cases err with
  | none =>
    dsimp only
    rw [if_neg (by rw [h]; simp)]
  | some e =>
    dsimp only
    rw [if_neg ?_]
    rintro ⟨hro, _⟩
    rw [onTaskError_runOnce, h] at hro
    exact Bool.false_ne_true hro

lemma timerFire_retry (st : LifeState) (e : ErrorV) (d : Duration)
    (hro : st.task.runOnce = true) (harm : st.task.timer = some d)
    (hnm : ∀ p ∈ st.task.rescheduleOnError, p.1 ≠ e)
    (hr : 0 < st.task.retriesOnError) :
    timerFire st (some e) =
      { st with
        execCount := st.execCount + 1,
        task := { st.task with
          retriesOnError := st.task.retriesOnError - 1,
          timer := some st.task.retryOnErrorInterval } } := by
  rw [timerFire_step st (some e) d harm]
  have hsync : execTaskSync { st with task := { st.task with timer := none } } =
      { st with task := { st.task with timer := none } } := by
    unfold execTaskSync
    rw [if_neg (by show ¬(st.task.runOnce = false); rw [hro]; simp)]
  rw [hsync]
  simp only [execTaskBody]
  rw [onTaskError_nomatch_retry { st.task with timer := none } e hnm hro hr]
  split
  · rename_i hcond
    exact absurd hcond.2 Bool.false_ne_true
  · rfl

lemma timerFire_exhausted (st : LifeState) (e : ErrorV) (d : Duration)
    (hreg : st.inRegistry = true) (hro : st.task.runOnce = true)
    (harm : st.task.timer = some d)
    (hnm : ∀ p ∈ st.task.rescheduleOnError, p.1 ≠ e)
    (hr : st.task.retriesOnError ≤ 0) :
    timerFire st (some e) =
      { task := Task.cancelOnDel { st.task with timer := none },
        inRegistry := false,
        execCount := st.execCount + 1 } := by
  rw [timerFire_step st (some e) d harm]
  have hsync : execTaskSync { st with task := { st.task with timer := none } } =
      { st with task := { st.task with timer := none } } := by
    unfold execTaskSync
    rw [if_neg (by show ¬(st.task.runOnce = false); rw [hro]; simp)]
  rw [hsync]
  simp only [execTaskBody]
  rw [onTaskError_nomatch_noretry { st.task with timer := none } e hnm
    (by rintro ⟨_, hlt⟩; exact absurd hlt (not_lt.2 hr))]
  split
  · unfold lifeDel
    split
    · rfl
    · rename_i hneg
      exact absurd hreg hneg
  · rename_i hcond
    exact absurd ⟨hro, rfl⟩ hcond

lemma iterFire_frozen (e : ErrorV) (st : LifeState) (h : st.task.timer = none) :
    ∀ m, iterFire e m st = st := by
  intro m
  induction m with
  | zero => rfl
  | succ m ih =>
    simp only [iterFire]
    rw [ih]
    exact timerFire_none st (some e) h

lemma runEvents_dormant (evs : List Ev) :
    ∀ st : LifeState, st.task.ctx = some true → st.task.timer = none →
      (runEvents st evs).execCount = st.execCount ∧
      (runEvents st evs).task.timer = none ∧
      (runEvents st evs).task.ctx = some true := by
  induction evs with
  | nil =>
    intro st hc ht
    exact ⟨rfl, ht, hc⟩
  | cons ev rest ih =>
    intro st hc ht
    have hstep : (stepEv st ev).execCount = st.execCount ∧
        (stepEv st ev).task.timer = none ∧
        (stepEv st ev).task.ctx = some true := by
      cases ev with
      | deferred =>
        simp only [stepEv]
        unfold deferredFire
        rw [scheduleTaskFire_canceled st.task hc]
        exact ⟨rfl, ht, hc⟩
      | fire err =>
        simp only [stepEv]
        rw [timerFire_none st err ht]
        exact ⟨rfl, ht, hc⟩
      | del =>
        simp only [stepEv]
        unfold lifeDel
        split
        · refine ⟨rfl, rfl, ?_⟩
          show st.task.ctx.map (fun _ => true) = some true
          rw [hc]
          rfl
        · exact ⟨rfl, ht, hc⟩
    obtain ⟨h1, h2, h3⟩ := hstep
    have hrest := ih (stepEv st ev) h3 h2
    simp only [runEvents]
    exact ⟨hrest.1.trans h1, hrest.2.1, hrest.2.2⟩

/-- Witness for C2 at a concrete input: error 4 matches the live policy
entry of the example task. -/
theorem rescheduleOnError_policy_witness :
    (onTaskError exPolicyTask 4).genericHandlerCalled = false ∧
    (onTaskError exPolicyTask 4).deleteTask = false ∧
    (0 < (⟨3, 2⟩ : RescheduleOpts).count →
      (onTaskError exPolicyTask 4).task =
        { exPolicyTask with timer := some (3 : Duration),
                            rescheduleOnError :=
                              setAssoc exPolicyTask.rescheduleOnError 4
                                { interval := 3, count := 1 } }) ∧
    ((⟨3, 2⟩ : RescheduleOpts).count ≤ 0 →
      (onTaskError exPolicyTask 4).task = exPolicyTask) :=
  rescheduleOnError_policy exPolicyTask 4 ⟨3, 2⟩ (by decide) (by decide)

lemma iterFire_mid (e : ErrorV) (m : Nat) (st : LifeState)
    (hreg : st.inRegistry = true) (hro : st.task.runOnce = true)
    (hret : st.task.retriesOnError = (m : Int))
    (harm : st.task.timer.isSome = true)
    (hnm : ∀ p ∈ st.task.rescheduleOnError, p.1 ≠ e) :
    ∀ k, k ≤ m →
      (iterFire e k st).inRegistry = true ∧
      (iterFire e k st).task.runOnce = true ∧
      (iterFire e k st).task.retriesOnError = (m : Int) - (k : Int) ∧
      (iterFire e k st).task.timer.isSome = true ∧
      (iterFire e k st).task.rescheduleOnError = st.task.rescheduleOnError ∧
      (iterFire e k st).task.retryOnErrorInterval = st.task.retryOnErrorInterval ∧
      (iterFire e k st).execCount = st.execCount + k ∧
      (0 < k → (iterFire e k st).task.timer = some st.task.retryOnErrorInterval) := by
  intro k
  induction k with
  | zero =>
    intro _
    refine ⟨hreg, hro, ?_, harm, rfl, rfl, rfl, fun h0 => absurd h0 (lt_irrefl 0)⟩
    show st.task.retriesOnError = (m : Int) - ((0 : Nat) : Int)
    rw [hret]
    simp
  | succ k ih =>
    intro hk
    obtain ⟨ireg, iro, iret, iarm, iresch, iretry, iexec, _⟩ :=
      ih (Nat.le_of_succ_le hk)
    obtain ⟨d, hd⟩ := Option.isSome_iff_exists.1 iarm
    have hr : 0 < (iterFire e k st).task.retriesOnError := by
      rw [iret]
      have hklt : (k : Int) < (m : Int) := by exact_mod_cast Nat.lt_of_succ_le hk
      omega
    have hnm2 : ∀ p ∈ (iterFire e k st).task.rescheduleOnError, p.1 ≠ e := by
      rw [iresch]
      exact hnm
    have hstep := timerFire_retry (iterFire e k st) e d iro hd hnm2 hr
    have hiter : iterFire e (k + 1) st = timerFire (iterFire e k st) (some e) := rfl
    rw [hiter, hstep]
    refine ⟨ireg, iro, ?_, rfl, iresch, iretry, ?_, fun _ => ?_⟩
    · show (iterFire e k st).task.retriesOnError - 1 = (m : Int) - ((k + 1 : Nat) : Int)
      rw [iret]
      omega
    · show (iterFire e k st).execCount + 1 = st.execCount + (k + 1)
      rw [iexec]
      omega
    · show some (iterFire e k st).task.retryOnErrorInterval =
        some st.task.retryOnErrorInterval
      rw [iretry]

/-- C1: a run-once task with `retriesOnError = N`, a positive retry
interval, and a body failing on every invocation with an error matching no
reschedule policy entry executes exactly N+1 times: each of the first N
failures decrements the retry counter and re-arms the timer to the retry
interval, the (N+1)-th failure removes the task from the registry with its
timer stopped, and every later timer fire is a no-op (no further execution
is scheduled). -/
theorem runOnce_retry_exhaustion (N : Nat) (e : ErrorV) (st : LifeState)
    (hreg : st.inRegistry = true) (hexec : st.execCount = 0)
    (hro : st.task.runOnce = true)
    (hret : st.task.retriesOnError = (N : Int))
    (harm : st.task.timer.isSome = true)
    (hpos : 0 < st.task.retryOnErrorInterval)
    (hnm : ∀ p ∈ st.task.rescheduleOnError, p.1 ≠ e) :
    (∀ k, k ≤ N + 1 → (iterFire e k st).execCount = k) ∧
    (∀ k, 1 ≤ k → k ≤ N →
      (iterFire e k st).inRegistry = true ∧
      (iterFire e k st).task.retriesOnError = (N : Int) - (k : Int) ∧
      (iterFire e k st).task.timer = some st.task.retryOnErrorInterval) ∧
    (iterFire e (N + 1) st).inRegistry = false ∧
    (iterFire e (N + 1) st).task.timer = none ∧
    (∀ m, iterFire e (N + 1 + m) st = iterFire e (N + 1) st) := by
  have hmid := iterFire_mid e N st hreg hro hret harm hnm
  obtain ⟨Nreg, Nro, Nret, Narm, Nresch, Nretry, Nexec, _⟩ := hmid N le_rfl
  obtain ⟨d, hd⟩ := Option.isSome_iff_exists.1 Narm
  have hr0 : (iterFire e N st).task.retriesOnError ≤ 0 := by
    rw [Nret]
    omega
  have hnm2 : ∀ p ∈ (iterFire e N st).task.rescheduleOnError, p.1 ≠ e := by
    rw [Nresch]
    exact hnm
  have hstepN := timerFire_exhausted (iterFire e N st) e d Nreg Nro hd hnm2 hr0
  have hiterN : iterFire e (N + 1) st = timerFire (iterFire e N st) (some e) := rfl
  have hfin : iterFire e (N + 1) st =
      { task := Task.cancelOnDel { (iterFire e N st).task with timer := none },
        inRegistry := false,
        execCount := (iterFire e N st).execCount + 1 } := by
    rw [hiterN, hstepN]
  have htimerN1 : (iterFire e (N + 1) st).task.timer = none := by
    rw [hfin]
    rfl
  refine ⟨?_, ?_, by rw [hfin], htimerN1, ?_⟩
  · intro k hk
    by_cases hkN : k ≤ N
    · have hex := (hmid k hkN).2.2.2.2.2.2.1
      rw [hex, hexec]
      omega
    · have hk1 : k = N + 1 := by omega
      subst hk1
      rw [hfin]
      show (iterFire e N st).execCount + 1 = N + 1
      rw [Nexec, hexec]
      omega
  · intro k hk1 hkN
    obtain ⟨ireg, _, iret, _, _, _, _, itimer⟩ := hmid k hkN
    exact ⟨ireg, iret, itimer hk1⟩
  · intro m
    induction m with
    | zero => rfl
    | succ m ih =>
      have hsucc : iterFire e (N + 1 + (m + 1)) st =
          timerFire (iterFire e (N + 1 + m) st) (some e) := rfl
      rw [hsucc, ih]
      exact timerFire_none _ (some e) htimerN1

/-- Witness for C1 at a concrete input: the run-once example task with 2
retries and an always-failing body (error 9) runs exactly 3 times and is
then gone. -/
theorem runOnce_retry_exhaustion_witness :
    (iterFire 9 3 exRunOnceLife).execCount = 3 ∧
    (iterFire 9 2 exRunOnceLife).inRegistry = true ∧
    (iterFire 9 2 exRunOnceLife).task.retriesOnError = (2 : Int) - (2 : Int) ∧
    (iterFire 9 2 exRunOnceLife).task.timer =
      some exRunOnceLife.task.retryOnErrorInterval ∧
    (iterFire 9 3 exRunOnceLife).inRegistry = false ∧
    (iterFire 9 3 exRunOnceLife).task.timer = none ∧
    iterFire 9 (2 + 1 + 2) exRunOnceLife = iterFire 9 3 exRunOnceLife := by
  have h := runOnce_retry_exhaustion 2 9 exRunOnceLife (by decide) (by decide)
    (by decide) (by decide) (by decide) (by decide) (by decide)
  exact ⟨h.1 3 (by decide), (h.2.1 2 (by decide) (by decide)).1,
    (h.2.1 2 (by decide) (by decide)).2.1, (h.2.1 2 (by decide) (by decide)).2.2,
    h.2.2.1, h.2.2.2.1, h.2.2.2.2 2⟩

/-- C6: if the private cancellation token is already canceled when the
deferred-start alarm fires, the `scheduleTask` callback arms no interval
timer; consequently a task deleted before its deferred-start alarm fires is
never executed: after `Del`, any sequence of lifecycle events leaves the
execution count at zero and the timer unarmed. -/
theorem del_before_deferred_never_executes (st : LifeState) (evs : List Ev)
    (hreg : st.inRegistry = true) (hc : st.task.ctx = some false)
    (ht : st.task.timer = none) (hexec : st.execCount = 0) :
    scheduleTaskFire (lifeDel st).task = (lifeDel st).task ∧
    (lifeDel st).task.timer = none ∧
    (lifeDel st).task.ctx = some true ∧
    (runEvents (lifeDel st) evs).execCount = 0 ∧
    (runEvents (lifeDel st) evs).task.timer = none := by
  have hld : lifeDel st = { st with inRegistry := false, task := st.task.cancelOnDel } := by
    unfold lifeDel
    rw [if_pos hreg]
  have hctx : (lifeDel st).task.ctx = some true := by
    rw [hld]
    show st.task.ctx.map (fun _ => true) = some true
    rw [hc]
    rfl
  have htd : (lifeDel st).task.timer = none := by
    rw [hld]
    rfl
  have hrun := runEvents_dormant evs (lifeDel st) hctx htd
  have hcnt : (lifeDel st).execCount = 0 := by
    rw [hld]
    exact hexec
  exact ⟨scheduleTaskFire_canceled _ hctx, htd, hctx, hrun.1.trans hcnt, hrun.2.1⟩

/-- Witness for C6 at a concrete input: the pending example task, deleted
and then exposed to a deferred-start fire, a timer fire and another
deferred-start fire, never executes. -/
theorem del_before_deferred_never_executes_witness :
    scheduleTaskFire (lifeDel exPendingLife).task = (lifeDel exPendingLife).task ∧
    (lifeDel exPendingLife).task.timer = none ∧
    (lifeDel exPendingLife).task.ctx = some true ∧
    (runEvents (lifeDel exPendingLife)
      [Ev.deferred, Ev.fire (some 3), Ev.deferred]).execCount = 0 ∧
    (runEvents (lifeDel exPendingLife)
      [Ev.deferred, Ev.fire (some 3), Ev.deferred]).task.timer = none :=
  del_before_deferred_never_executes exPendingLife
    [Ev.deferred, Ev.fire (some 3), Ev.deferred]
    (by decide) (by decide) (by decide) (by decide)

/-- C7: the execution path never removes a recurring task, whatever its
body returns (success, matched error or unmatched error): a timer fire — and
a deferred-start fire — leaves registry membership unchanged, and the
synchronous part of `execTask` re-arms the interval timer to `Interval`
before the spawned body completes. -/
theorem recurring_never_deleted_by_exec (st : LifeState) (err : Option ErrorV)
    (h : st.task.runOnce = false) :
    (timerFire st err).inRegistry = st.inRegistry ∧
    (deferredFire st).inRegistry = st.inRegistry ∧
    (execTaskSync st).task.timer = some st.task.interval := by
  refine ⟨?_, rfl, ?_⟩
  · cases htimer : st.task.timer with
    | none => rw [timerFire_none st err htimer]
    | some d =>
      rw [timerFire_step st err d htimer]
      have hro2 : (execTaskSync
          { st with task := { st.task with timer := none } }).task.runOnce = false := by
        rw [execTaskSync_runOnce_pres]
        exact h
      rw [execTaskBody_inRegistry _ err hro2, execTaskSync_inRegistry]
  · unfold execTaskSync
    rw [if_pos h]

/-- Witness for C7 at a concrete input: a fire of the recurring example
task whose body fails with the unmatched error 5. -/
theorem recurring_never_deleted_by_exec_witness :
    (timerFire exPolicyLife (some 5)).inRegistry = exPolicyLife.inRegistry ∧
    (deferredFire exPolicyLife).inRegistry = exPolicyLife.inRegistry ∧
    (execTaskSync exPolicyLife).task.timer = some exPolicyLife.task.interval :=
  recurring_never_deleted_by_exec exPolicyLife (some 5) (by decide)

end Tasks
